import Mathlib

/-!
Shallow embedding of the rate limiter from
`marcelobritu/go-expert-desafio-rate-limiter`.

The embedded code is `limiter/limiter.go` (the decision engine),
`strategy/redis_strategy.go` (the Redis storage strategy, modelled as a
key–value store with absolute expiry timestamps) and the configuration
structures of `config/config.go`.  Go `time.Time` and `time.Duration` are
both modelled as `Int` nanoseconds; `time.Second` is `1000000000`.
Go `int` is modelled as `Int` (no claim here depends on 64-bit overflow).
The Redis keyspace is an association list from keys to a stored value and
its absolute expiry instant; a per-key `failing` list injects backend
failures (network errors), which every Redis command of the strategy
surfaces as an error, as in the Go client.
-/

namespace RateLimiter

/-- Go `time.Time`, as `Int` nanoseconds since the epoch. -/
abbrev Time := Int

/-- Go `time.Duration`, `Int` nanoseconds. -/
abbrev Duration := Int

/-- Go `time.Second`. -/
def timeSecond : Duration := 1000000000

/-- `strategy.RateLimitInfo` (strategy interface file): the JSON document the
strategy's `Set`/`Get` exchange.  Go zero values: `0`, `0`, `false`, `0`. -/
structure RateLimitInfo where
  count : Int
  resetTime : Time
  blocked : Bool
  blockUntil : Time
deriving DecidableEq, Repr

/-- A value stored under a Redis key.  `intVal` is what `INCR` leaves behind
(Redis stores it as a decimal string); `strVal` is a plain string, as written
by `SetBlocked` (always `"1"`); `infoVal` is a JSON-marshalled
`RateLimitInfo`, as written only by the strategy's `Set` (which the engine
never calls). -/
inductive RVal where
  | intVal (n : Int)
  | strVal (s : String)
  | infoVal (i : RateLimitInfo)
deriving DecidableEq, Repr

/-- Keyspace entries: key, stored value, absolute expiry instant. -/
abbrev KVList := List (String × RVal × Time)

/-- Point lookup in the keyspace (first match). -/
def lookupKV : KVList → String → Option (RVal × Time)
  | [], _ => none
  | (k, v) :: rest, key => if key = k then some v else lookupKV rest key

/-- Write a key (overwriting any earlier binding of the same key). -/
def updateKV : KVList → String → RVal × Time → KVList
  | [], key, v => [(key, v)]
  | (k, w) :: rest, key, v =>
      if key = k then (key, v) :: rest else (k, w) :: updateKV rest key v

/-- Redis `DEL` on one key. -/
def removeKV : KVList → String → KVList
  | [], _ => []
  | (k, w) :: rest, key =>
      if key = k then removeKV rest key else (k, w) :: removeKV rest key

/-- The Redis server state as the strategy uses it, plus the set of keys
whose commands currently fail with a backend/network error. -/
structure Store where
  data : KVList
  failing : List String
deriving DecidableEq, Repr

/-- A key's live value at instant `now`: Redis treats a key whose expiry has
been reached as absent. -/
def Store.lookupLive (s : Store) (key : String) (now : Time) : Option RVal :=
  match lookupKV s.data key with
  | none => none
  | some (v, exp) => if now < exp then some v else none

/-- The Go `error` values the embedded code produces.  `redisUnavailable` is
any backend/network failure of a Redis command; `unmarshalError` is the
`json.Unmarshal` failure in `Get`; `wrongType` is Redis refusing `INCR` on a
non-integer value; `failedToIncrement` is the limiter's
`fmt.Errorf("failed to increment counter: %w", err)` wrapper;
`tokenNotConfigured` is `fmt.Errorf("token not configured")`. -/
inductive GoErr where
  | redisUnavailable
  | unmarshalError
  | wrongType
  | failedToIncrement (e : GoErr)
  | tokenNotConfigured
deriving DecidableEq, Repr

/-- Equality of Go results (a value or an `error`) is decidable, so closed
runs of the embedded code can be checked by evaluation. -/
instance decEqExcept {ε α : Type} [DecidableEq ε] [DecidableEq α] :
    DecidableEq (Except ε α) := fun x y =>
  match x, y with
  | .ok a, .ok b =>
      if h : a = b then .isTrue (by rw [h]) else .isFalse (by simp [h])
  | .error a, .error b =>
      if h : a = b then .isTrue (by rw [h]) else .isFalse (by simp [h])
  | .ok _, .error _ => .isFalse (by simp)
  | .error _, .ok _ => .isFalse (by simp)

namespace RedisStrategy

/-- `redis_strategy.go` `Get`: a backend failure is returned; `redis.Nil`
(absent or expired key) yields the zero-value record
`{Count: 0, ResetTime: now + time.Second, Blocked: false}`; otherwise the
stored bytes are `json.Unmarshal`led into a `RateLimitInfo`.  A value left
by `INCR` or by `SetBlocked` is a bare number (`"3"`, `"1"`), and
`json.Unmarshal` of a JSON number into the `RateLimitInfo` struct fails with
an `UnmarshalTypeError`; only a document written by `Set` unmarshals. -/
def get (s : Store) (key : String) (now : Time) : Except GoErr RateLimitInfo :=
  if key ∈ s.failing then .error .redisUnavailable
  else
    match s.lookupLive key now with
    | none => .ok { count := 0, resetTime := now + timeSecond, blocked := false, blockUntil := 0 }
    | some (.infoVal i) => .ok i
    | some (.intVal _) => .error .unmarshalError
    | some (.strVal _) => .error .unmarshalError

/-- `redis_strategy.go` `Increment`: a pipeline of `INCR key` then
`EXPIRE key expiration`, executed in one round trip.  `INCR` on an absent
(or expired) key creates it at `1`; on an integer value it adds `1`; a
string value is parsed as an integer if possible and is otherwise an error.
The `EXPIRE` always runs, so the expiry is set to `now + expiration` on
every successful call, first increment or not.  Returns the post-increment
value. -/
def increment (s : Store) (key : String) (expiration : Duration) (now : Time) :
    Except GoErr (Int × Store) :=
  if key ∈ s.failing then .error .redisUnavailable
  else
    match s.lookupLive key now with
    | none =>
        .ok (1, { s with data := updateKV s.data key (.intVal 1, now + expiration) })
    | some (.intVal n) =>
        .ok (n + 1, { s with data := updateKV s.data key (.intVal (n + 1), now + expiration) })
    | some (.strVal str) =>
        match str.toInt? with
        | some n =>
            .ok (n + 1, { s with data := updateKV s.data key (.intVal (n + 1), now + expiration) })
        | none => .error .wrongType
    | some (.infoVal _) => .error .wrongType

/-- `redis_strategy.go` `SetBlocked`: writes `"1"` under `"blocked:" + key`
with TTL `blockUntil - now`; a non-positive duration is a no-op (checked
before the Redis command is issued). -/
def SetBlocked (s : Store) (key : String) (blockUntil : Time) (now : Time) :
    Except GoErr Store :=
  let blockKey := "blocked:" ++ key
  let blockDuration := blockUntil - now
  if blockDuration ≤ 0 then .ok s
  else if blockKey ∈ s.failing then .error .redisUnavailable
  else .ok { s with data := updateKV s.data blockKey (.strVal "1", blockUntil) }

/-- `redis_strategy.go` `IsBlocked`: `TTL "blocked:" + key`; Redis answers
`-2` for an absent (or expired) key.  A TTL `≤ 0` means not blocked;
otherwise blocked until `now + ttl`. -/
def IsBlocked (s : Store) (key : String) (now : Time) :
    Except GoErr (Bool × Time) :=
  let blockKey := "blocked:" ++ key
  if blockKey ∈ s.failing then .error .redisUnavailable
  else
    let ttl : Int :=
      match lookupKV s.data blockKey with
      | none => -2
      | some (_, exp) => if now < exp then exp - now else -2
    if ttl ≤ 0 then .ok (false, 0)
    else .ok (true, now + ttl)

/-- `redis_strategy.go` `Delete`: one pipeline deleting both `key` and
`"blocked:" + key`. -/
def Delete (s : Store) (key : String) : Except GoErr Store :=
  let blockKey := "blocked:" ++ key
  if key ∈ s.failing ∨ blockKey ∈ s.failing then .error .redisUnavailable
  else .ok { s with data := removeKV (removeKV s.data key) blockKey }

end RedisStrategy

/-- `strategy.GetKeyWithPrefix`: `fmt.Sprintf("%s:%s", prefix, identifier)`. -/
def GetKeyWithPrefix (p : String) (identifier : String) : String :=
  p ++ ":" ++ identifier

/-- `config.TokenLimit`. -/
structure TokenLimit where
  limit : Int
  blockTime : Duration
deriving DecidableEq, Repr

/-- `config.RateLimitConfig`; the Go `map[string]TokenLimit` is an
association list with distinct keys. -/
structure RateLimitConfig where
  ipLimit : Int
  ipBlockTime : Duration
  tokenLimits : List (String × TokenLimit)
deriving DecidableEq, Repr

/-- Go map lookup `config.RateLimit.TokenLimits[token]`. -/
def lookupToken : List (String × TokenLimit) → String → Option TokenLimit
  | [], _ => none
  | (k, v) :: rest, tok => if tok = k then some v else lookupToken rest tok

/-- `limiter.CheckResult`.  Go zero values for the omitted fields:
`BlockTime = 0`, `Reason = ""`. -/
structure CheckResult where
  allowed : Bool
  remaining : Int
  resetTime : Time
  blockTime : Duration
  reason : String
deriving DecidableEq, Repr

/-- `limiter.go` `CheckIPRateLimit`: key `"ip:" + ip`; increment with a
one-second window; if the post-increment count exceeds `IPLimit`, return
denied with `Remaining 0`, `ResetTime now + 1s` and reason
`"IP rate limit exceeded"` — no block marker is written and `BlockTime`
keeps its zero value; otherwise allowed with `Remaining` clamped to `≥ 0`
and `ResetTime now + 1s`.  An `Increment` error is wrapped and returned. -/
def CheckIPRateLimit (cfg : RateLimitConfig) (s : Store) (now : Time) (ip : String) :
    Except GoErr (CheckResult × Store) :=
  let key := GetKeyWithPrefix "ip" ip
  match RedisStrategy.increment s key timeSecond now with
  | .error e => .error (.failedToIncrement e)
  | .ok (newCount, s1) =>
      if newCount > cfg.ipLimit then
        .ok ({ allowed := false, remaining := 0, resetTime := now + timeSecond,
               blockTime := 0, reason := "IP rate limit exceeded" }, s1)
      else
        let remaining := cfg.ipLimit - newCount
        let remaining := if remaining < 0 then 0 else remaining
        .ok ({ allowed := true, remaining := remaining, resetTime := now + timeSecond,
               blockTime := 0, reason := "" }, s1)

/-- `limiter.go` `CheckTokenRateLimit`: key `"token:" + token`; a token with
no entry in `TokenLimits` returns `error "token not configured"` before any
storage operation; otherwise the same increment-then-compare as the IP path
against the token's own limit, with reason `"Token rate limit exceeded"`. -/
def CheckTokenRateLimit (cfg : RateLimitConfig) (s : Store) (now : Time) (token : String) :
    Except GoErr (CheckResult × Store) :=
  let key := GetKeyWithPrefix "token" token
  match lookupToken cfg.tokenLimits token with
  | none => .error .tokenNotConfigured
  | some tokenConfig =>
      match RedisStrategy.increment s key timeSecond now with
      | .error e => .error (.failedToIncrement e)
      | .ok (newCount, s1) =>
          if newCount > tokenConfig.limit then
            .ok ({ allowed := false, remaining := 0, resetTime := now + timeSecond,
                   blockTime := 0, reason := "Token rate limit exceeded" }, s1)
          else
            let remaining := tokenConfig.limit - newCount
            let remaining := if remaining < 0 then 0 else remaining
            .ok ({ allowed := true, remaining := remaining, resetTime := now + timeSecond,
                   blockTime := 0, reason := "" }, s1)

/-- `limiter.go` `CheckRateLimit`: with a non-empty token, try the token
path first and return its result when it succeeds; on **any** error from the
token path (token not configured, or a wrapped storage failure) fall back to
the IP path.  With an empty token, go straight to the IP path. -/
def CheckRateLimit (cfg : RateLimitConfig) (s : Store) (now : Time)
    (ip token : String) : Except GoErr (CheckResult × Store) :=
  if token = "" then CheckIPRateLimit cfg s now ip
  else
    match CheckTokenRateLimit cfg s now token with
    | .ok r => .ok r
    | .error _ => CheckIPRateLimit cfg s now ip

/-- `limiter.go` `ResetRateLimit`: delegates to the storage `Delete`. -/
def ResetRateLimit (s : Store) (key : String) : Except GoErr Store :=
  RedisStrategy.Delete s key

/-- `limiter.go` `GetRateLimitInfo`: delegates to the storage `Get`;
purely a read, the store is not modified. -/
def GetRateLimitInfo (s : Store) (key : String) (now : Time) :
    Except GoErr RateLimitInfo :=
  RedisStrategy.get s key now

/-- Run `n` successive `CheckRateLimit cfg · now ip ""` calls (bare-IP
checks at one instant), threading the store; stops at the first error. -/
def stepsIP (cfg : RateLimitConfig) (now : Time) (ip : String) :
    Nat → Store → Except GoErr Store
  | 0, s => .ok s
  | n + 1, s =>
      match CheckRateLimit cfg s now ip "" with
      | .error e => .error e
      | .ok (_, s1) => stepsIP cfg now ip n s1

/-- The result of the `n`-th (1-indexed) bare-IP check of a same-instant
sequence: run `n - 1` checks, then report the next one's `CheckResult`. -/
def nthIPResult (cfg : RateLimitConfig) (now : Time) (ip : String)
    (n : Nat) (s : Store) : Option CheckResult :=
  match stepsIP cfg now ip (n - 1) s with
  | .error _ => none
  | .ok s1 =>
      match CheckRateLimit cfg s1 now ip "" with
      | .error _ => none
      | .ok (r, _) => some r

/-- The store after `k` same-instant bare-IP checks starting from `s` with a
fresh key: the key `"ip:" + ip` holds the counter `k` with expiry
`now + 1s` (and for `k = 0` the store is untouched). -/
def ipCountStore (s : Store) (ip : String) (now : Time) : Nat → Store
  | 0 => s
  | k + 1 =>
      { s with data := updateKV s.data ("ip:" ++ ip)
                 (.intVal ((k : Int) + 1), now + timeSecond) }

/-- What `CheckIPRateLimit` answers when the post-increment count is `n`. -/
def nthIPCheckResult (cfg : RateLimitConfig) (now : Time) (n : Int) : CheckResult :=
  if n > cfg.ipLimit then
    { allowed := false, remaining := 0, resetTime := now + timeSecond,
      blockTime := 0, reason := "IP rate limit exceeded" }
  else
    { allowed := true,
      remaining := if cfg.ipLimit - n < 0 then 0 else cfg.ipLimit - n,
      resetTime := now + timeSecond, blockTime := 0, reason := "" }

/-- Concrete configuration used by the closed scenarios: IP limit `10`,
IP block time one minute (the repository's default `1m`), and the token
`"abc123"` configured with limit `100` and block time `5m`, as in the
repository's `env.example`. -/
def cfgA : RateLimitConfig :=
  { ipLimit := 10, ipBlockTime := 60 * timeSecond,
    tokenLimits := [("abc123", { limit := 100, blockTime := 300 * timeSecond })] }

/-- A store with no keys and no injected failures. -/
def emptyStore : Store := { data := [], failing := [] }

/-! ### Association-list lemmas -/

theorem lookupKV_updateKV_self (l : KVList) (key : String) (v : RVal × Time) :
    lookupKV (updateKV l key v) key = some v := by
  induction l with
  | nil => simp [updateKV, lookupKV]
  | cons p rest ih =>
      obtain ⟨k, w⟩ := p
      by_cases h : key = k
      · simp [updateKV, h, lookupKV]
      · simp [updateKV, h, lookupKV, ih]

theorem lookupKV_updateKV_ne (l : KVList) {k' key : String} (v : RVal × Time)
    (h : k' ≠ key) : lookupKV (updateKV l key v) k' = lookupKV l k' := by
  induction l with
  | nil => simp [updateKV, lookupKV, h]
  | cons p rest ih =>
      obtain ⟨k, w⟩ := p
      by_cases hk : key = k
      · subst hk
        simp [updateKV, lookupKV, h]
      · by_cases hk' : k' = k
        · simp [updateKV, lookupKV, hk, hk']
        · simp [updateKV, lookupKV, hk, hk', ih]

theorem updateKV_updateKV (l : KVList) (key : String) (v w : RVal × Time) :
    updateKV (updateKV l key v) key w = updateKV l key w := by
  induction l with
  | nil => simp [updateKV]
  | cons p rest ih =>
      obtain ⟨k, x⟩ := p
      by_cases h : key = k
      · simp [updateKV, h]
      · simp [updateKV, h, ih]

theorem lookupKV_removeKV_self (l : KVList) (key : String) :
    lookupKV (removeKV l key) key = none := by
  induction l with
  | nil => simp [removeKV, lookupKV]
  | cons p rest ih =>
      obtain ⟨k, w⟩ := p
      by_cases h : key = k
      · subst h
        simp [removeKV, ih]
      · simp [removeKV, h, lookupKV, ih]

theorem lookupKV_removeKV_ne (l : KVList) {k' key : String} (h : k' ≠ key) :
    lookupKV (removeKV l key) k' = lookupKV l k' := by
  induction l with
  | nil => simp [removeKV]
  | cons p rest ih =>
      obtain ⟨k, w⟩ := p
      by_cases hk : key = k
      · subst hk
        simp [removeKV, lookupKV, h, ih]
      · by_cases hk' : k' = k
        · simp [removeKV, lookupKV, hk, hk']
        · simp [removeKV, lookupKV, hk, hk', ih]

/-- Keys of the IP scope and of the token scope never collide: they differ
already in their first character. -/
theorem ipKey_ne_tokenKey (a b : String) :
    ("ip:" ++ a) ≠ ("token:" ++ b) := by
  intro h
  have h2 := congrArg String.data h
  simp [String.data_append] at h2

/-! ### Characterizations of the storage operations -/

/-- A successful `Increment` leaves exactly the incremented counter under
`key`, with expiry `now + exp`; nothing else of the store changes. -/
theorem increment_ok_store {s : Store} {key : String} {exp : Duration}
    {now : Time} {n : Int} {s' : Store}
    (h : RedisStrategy.increment s key exp now = .ok (n, s')) :
    s' = { s with data := updateKV s.data key (.intVal n, now + exp) } := by
  unfold RedisStrategy.increment at h
  split at h
  · simp at h
  · split at h
    · simp only [Except.ok.injEq, Prod.mk.injEq] at h
      obtain ⟨hn, hs⟩ := h
      subst hn
      exact hs.symm
    · simp only [Except.ok.injEq, Prod.mk.injEq] at h
      obtain ⟨hn, hs⟩ := h
      subst hn
      exact hs.symm
    · split at h
      · simp only [Except.ok.injEq, Prod.mk.injEq] at h
        obtain ⟨hn, hs⟩ := h
        subst hn
        exact hs.symm
      · simp at h
    · simp at h

/-- A successful `CheckIPRateLimit` changed the store only by the one
increment of the key `"ip:" + ip`. -/
theorem CheckIPRateLimit_ok_store {cfg : RateLimitConfig} {s : Store}
    {now : Time} {ip : String} {r : CheckResult} {s' : Store}
    (h : CheckIPRateLimit cfg s now ip = .ok (r, s')) :
    ∃ n : Int, s' = { s with
      data := updateKV s.data ("ip:" ++ ip) (.intVal n, now + timeSecond) } := by
  unfold CheckIPRateLimit GetKeyWithPrefix at h
  dsimp only at h
  split at h
  · simp at h
  case _ newCount s1 heq =>
    refine ⟨newCount, ?_⟩
    have hs1 := increment_ok_store heq
    split at h <;>
      · simp only [Except.ok.injEq, Prod.mk.injEq] at h
        exact h.2.symm.trans hs1

/-- A successful `CheckTokenRateLimit` changed the store only by the one
increment of the key `"token:" + token`. -/
theorem CheckTokenRateLimit_ok_store {cfg : RateLimitConfig} {s : Store}
    {now : Time} {token : String} {r : CheckResult} {s' : Store}
    (h : CheckTokenRateLimit cfg s now token = .ok (r, s')) :
    ∃ n : Int, s' = { s with
      data := updateKV s.data ("token:" ++ token) (.intVal n, now + timeSecond) } := by
  unfold CheckTokenRateLimit GetKeyWithPrefix at h
  dsimp only at h
  split at h
  · simp at h
  · split at h
    · simp at h
    case _ newCount s1 heq =>
      refine ⟨newCount, ?_⟩
      have hs1 := increment_ok_store heq
      split at h <;>
        · simp only [Except.ok.injEq, Prod.mk.injEq] at h
          exact h.2.symm.trans hs1

/-- Whatever `CheckIPRateLimit` allows or denies, `Remaining` is clamped to
be non-negative. -/
theorem CheckIPRateLimit_remaining_nonneg {cfg : RateLimitConfig} {s : Store}
    {now : Time} {ip : String} {r : CheckResult} {s' : Store}
    (h : CheckIPRateLimit cfg s now ip = .ok (r, s')) : 0 ≤ r.remaining := by
  unfold CheckIPRateLimit at h
  dsimp only at h
  split at h
  · simp at h
  · split at h
    · simp only [Except.ok.injEq, Prod.mk.injEq] at h
      rw [← h.1]
    · simp only [Except.ok.injEq, Prod.mk.injEq] at h
      rw [← h.1]
      simp only
      split <;> omega

/-- Whatever `CheckTokenRateLimit` allows or denies, `Remaining` is clamped
to be non-negative. -/
theorem CheckTokenRateLimit_remaining_nonneg {cfg : RateLimitConfig} {s : Store}
    {now : Time} {token : String} {r : CheckResult} {s' : Store}
    (h : CheckTokenRateLimit cfg s now token = .ok (r, s')) : 0 ≤ r.remaining := by
  unfold CheckTokenRateLimit at h
  dsimp only at h
  split at h
  · simp at h
  · split at h
    · simp at h
    · split at h
      · simp only [Except.ok.injEq, Prod.mk.injEq] at h
        rw [← h.1]
      · simp only [Except.ok.injEq, Prod.mk.injEq] at h
        rw [← h.1]
        simp only
        split <;> omega

/-! ### Sequential bare-IP checks from a fresh key -/

theorem now_lt_add_timeSecond (now : Time) : now < now + timeSecond := by
  have h : (0 : Int) < timeSecond := by unfold timeSecond; omega
  exact lt_add_of_pos_right now h

/-- With a fresh key and no failure injected on it, the `k + 1`-st increment
of the IP key at one instant returns `k + 1` and stores it. -/
theorem increment_ipCountStore (s : Store) (ip : String) (now : Time)
    (hfresh : lookupKV s.data ("ip:" ++ ip) = none)
    (hfail : ("ip:" ++ ip) ∉ s.failing) (k : Nat) :
    RedisStrategy.increment (ipCountStore s ip now k) ("ip:" ++ ip) timeSecond now =
      .ok ((k : Int) + 1, ipCountStore s ip now (k + 1)) := by
  cases k with
  | zero =>
      unfold RedisStrategy.increment Store.lookupLive
      simp [ipCountStore, hfresh, hfail]
  | succ j =>
      have hlook : lookupKV (ipCountStore s ip now (j + 1)).data ("ip:" ++ ip)
          = some (.intVal ((j : Int) + 1), now + timeSecond) := by
        simp [ipCountStore, lookupKV_updateKV_self]
      have hpos : (0 : Int) < timeSecond := by unfold timeSecond; omega
      unfold RedisStrategy.increment Store.lookupLive
      simp only [ipCountStore] at hlook ⊢
      simp [hfail, hlook, hpos, updateKV_updateKV]

/-- One bare-IP `CheckRateLimit` step from the `k`-check store: it answers
for the post-increment count `k + 1` and moves to the `k + 1`-check store. -/
theorem CheckRateLimit_ipCountStore (cfg : RateLimitConfig) (s : Store)
    (ip : String) (now : Time)
    (hfresh : lookupKV s.data ("ip:" ++ ip) = none)
    (hfail : ("ip:" ++ ip) ∉ s.failing) (k : Nat) :
    CheckRateLimit cfg (ipCountStore s ip now k) now ip "" =
      .ok (nthIPCheckResult cfg now ((k : Int) + 1), ipCountStore s ip now (k + 1)) := by
  have hip : CheckRateLimit cfg (ipCountStore s ip now k) now ip "" =
      CheckIPRateLimit cfg (ipCountStore s ip now k) now ip := by
    simp [CheckRateLimit]
  rw [hip]
  unfold CheckIPRateLimit
  rw [show GetKeyWithPrefix "ip" ip = "ip:" ++ ip from rfl]
  dsimp only
  rw [increment_ipCountStore s ip now hfresh hfail k]
  by_cases hlim : ((k : Int) + 1) > cfg.ipLimit
  · simp [nthIPCheckResult, hlim]
  · simp [nthIPCheckResult, hlim]

/-- Running `j` further bare-IP checks from the `k`-check store reaches the
`k + j`-check store, with no error. -/
theorem stepsIP_ipCountStore (cfg : RateLimitConfig) (s : Store)
    (ip : String) (now : Time)
    (hfresh : lookupKV s.data ("ip:" ++ ip) = none)
    (hfail : ("ip:" ++ ip) ∉ s.failing) :
    ∀ j k : Nat, stepsIP cfg now ip j (ipCountStore s ip now k) =
      .ok (ipCountStore s ip now (k + j)) := by
  intro j
  induction j with
  | zero => intro k; simp [stepsIP]
  | succ i ih =>
      intro k
      have hstep := CheckRateLimit_ipCountStore cfg s ip now hfresh hfail k
      have hrest := ih (k + 1)
      have harith : k + 1 + i = k + (i + 1) := by omega
      rw [harith] at hrest
      simp [stepsIP, hstep, hrest]

/-- The `n`-th same-instant bare-IP check from a fresh key answers for the
post-increment count `n`. -/
theorem nthIPResult_fresh (cfg : RateLimitConfig) (s : Store)
    (ip : String) (now : Time)
    (hfresh : lookupKV s.data ("ip:" ++ ip) = none)
    (hfail : ("ip:" ++ ip) ∉ s.failing) (n : Nat) (hn : 1 ≤ n) :
    nthIPResult cfg now ip n s = some (nthIPCheckResult cfg now (n : Int)) := by
  unfold nthIPResult
  have hsteps : stepsIP cfg now ip (n - 1) s = .ok (ipCountStore s ip now (n - 1)) := by
    simpa [ipCountStore] using stepsIP_ipCountStore cfg s ip now hfresh hfail (n - 1) 0
  rw [hsteps]
  dsimp only
  rw [CheckRateLimit_ipCountStore cfg s ip now hfresh hfail (n - 1)]
  have hc : ((n - 1 : Nat) : Int) + 1 = (n : Int) := by omega
  rw [hc]

/-! ### The claims -/

/-- Claim C4: for every limit and every `N` with `1 ≤ N ≤ limit`, the `N`-th
of `N` sequential `CheckRateLimit` calls against a fresh key (same-instant,
so all inside one unexpired window) is allowed with
`remaining = limit - N`; and `Remaining` is always clamped to be `≥ 0`. -/
theorem c4_sequential_checks_remaining :
    (∀ (cfg : RateLimitConfig) (s : Store) (now : Time) (ip : String) (N : Nat),
       lookupKV s.data ("ip:" ++ ip) = none →
       ("ip:" ++ ip) ∉ s.failing →
       1 ≤ N → (N : Int) ≤ cfg.ipLimit →
       nthIPResult cfg now ip N s =
         some { allowed := true, remaining := cfg.ipLimit - (N : Int),
                resetTime := now + timeSecond, blockTime := 0, reason := "" }) ∧
    (∀ (cfg : RateLimitConfig) (s : Store) (now : Time) (ip token : String)
       (r : CheckResult) (s2 : Store),
       CheckRateLimit cfg s now ip token = .ok (r, s2) → 0 ≤ r.remaining) := by
  constructor
  · intro cfg s now ip N hfresh hfail h1 hN
    rw [nthIPResult_fresh cfg s ip now hfresh hfail N h1]
    unfold nthIPCheckResult
    rw [if_neg (show ¬((N : Int) > cfg.ipLimit) by omega),
        if_neg (show ¬(cfg.ipLimit - (N : Int) < 0) by omega)]
  · intro cfg s now ip token r s2 h
    unfold CheckRateLimit at h
    split at h
    · exact CheckIPRateLimit_remaining_nonneg h
    · split at h
      case _ r1 heq =>
        simp only [Except.ok.injEq] at h
        subst h
        exact CheckTokenRateLimit_remaining_nonneg heq
      case _ e heq =>
        exact CheckIPRateLimit_remaining_nonneg h

/-- Witness for C4: the third of three same-second checks for `10.0.0.1`
under IP limit `10` is allowed with `remaining = 10 - 3`. -/
theorem c4_sequential_checks_remaining_witness :
    nthIPResult cfgA 0 "10.0.0.1" 3 emptyStore =
      some { allowed := true, remaining := cfgA.ipLimit - (3 : Int),
             resetTime := 0 + timeSecond, blockTime := 0, reason := "" } :=
  c4_sequential_checks_remaining.1 cfgA emptyStore 0 "10.0.0.1" 3
    (by decide) (by decide) (by decide) (by decide)

/-- Claim C5: every successful `Increment key window` call leaves the
counter under `key` with expiry exactly `now + window` — whether or not it
was the first increment — so the record is live at exactly the instants
before `now + window` and disappears (count resets) only after the window
elapses with no further increment. -/
theorem c5_increment_renews_expiry (s : Store) (key : String)
    (exp : Duration) (now : Time) (n : Int) (s2 : Store)
    (h : RedisStrategy.increment s key exp now = .ok (n, s2)) :
    lookupKV s2.data key = some (.intVal n, now + exp) ∧
    ∀ t : Time, s2.lookupLive key t =
      if t < now + exp then some (.intVal n) else none := by
  have hs := increment_ok_store h
  subst hs
  constructor
  · exact lookupKV_updateKV_self _ _ _
  · intro t
    simp [Store.lookupLive, lookupKV_updateKV_self]

/-- Witness for C5: a first increment of `ip:10.0.0.1` at instant `0` with a
one-second window stores count `1` with expiry `0 + 1s`. -/
theorem c5_increment_renews_expiry_witness :
    lookupKV (Store.mk [("ip:10.0.0.1", RVal.intVal 1, 0 + timeSecond)] []).data
      "ip:10.0.0.1" = some (.intVal 1, 0 + timeSecond) :=
  (c5_increment_renews_expiry emptyStore "ip:10.0.0.1" timeSecond 0 1
    (Store.mk [("ip:10.0.0.1", RVal.intVal 1, 0 + timeSecond)] []) (by decide)).1

/-- Claim C6: when a non-empty token has a configured entry and its check
completes, `CheckRateLimit` returns the token-scope result directly, every
IP-scoped key is left untouched (neither read for the decision nor
incremented), and `ip:<x>` and `token:<y>` keys never collide. -/
theorem c6_token_scope_isolated (cfg : RateLimitConfig) (s : Store)
    (now : Time) (ip token : String) (entry : TokenLimit)
    (r : CheckResult) (s2 : Store) (hne : token ≠ "")
    (_hcfg : lookupToken cfg.tokenLimits token = some entry)
    (hok : CheckTokenRateLimit cfg s now token = .ok (r, s2)) :
    CheckRateLimit cfg s now ip token = .ok (r, s2) ∧
    (∀ ip2 : String, lookupKV s2.data ("ip:" ++ ip2) = lookupKV s.data ("ip:" ++ ip2)) ∧
    (∀ a b : String, ("ip:" ++ a) ≠ ("token:" ++ b)) := by
  refine ⟨?_, ?_, ipKey_ne_tokenKey⟩
  · unfold CheckRateLimit
    rw [if_neg hne, hok]
  · intro ip2
    obtain ⟨n, hs⟩ := CheckTokenRateLimit_ok_store hok
    subst hs
    exact lookupKV_updateKV_ne _ _ (ipKey_ne_tokenKey ip2 token)

/-- Witness for C6: a request with configured token `abc123` is decided by
the token scope alone (`remaining = 99`), with no IP key written. -/
theorem c6_token_scope_isolated_witness :
    CheckRateLimit cfgA emptyStore 0 "10.0.0.1" "abc123" =
      .ok ({ allowed := true, remaining := 99, resetTime := 0 + timeSecond,
             blockTime := 0, reason := "" },
           Store.mk [("token:abc123", RVal.intVal 1, 0 + timeSecond)] []) :=
  (c6_token_scope_isolated cfgA emptyStore 0 "10.0.0.1" "abc123"
    { limit := 100, blockTime := 300 * timeSecond }
    { allowed := true, remaining := 99, resetTime := 0 + timeSecond,
      blockTime := 0, reason := "" }
    (Store.mk [("token:abc123", RVal.intVal 1, 0 + timeSecond)] [])
    (by decide) (by decide) (by decide)).1

/-- Claim C7: a non-empty token with no configured entry falls back silently
to the IP path: the whole outcome (result and store, error included) equals
that of the bare-IP check, so the unconfigured token never blocks on its
own and the fallback is never surfaced as an error. -/
theorem c7_unconfigured_token_falls_back (cfg : RateLimitConfig) (s : Store)
    (now : Time) (ip token : String) (hne : token ≠ "")
    (hnc : lookupToken cfg.tokenLimits token = none) :
    CheckRateLimit cfg s now ip token = CheckRateLimit cfg s now ip "" := by
  have htok : CheckTokenRateLimit cfg s now token = .error .tokenNotConfigured := by
    unfold CheckTokenRateLimit
    rw [hnc]
  unfold CheckRateLimit
  rw [if_neg hne, if_pos rfl, htok]

/-- Witness for C7: token `unknown-token` (not configured) gives the same
outcome as a bare-IP check. -/
theorem c7_unconfigured_token_falls_back_witness :
    CheckRateLimit cfgA emptyStore 0 "10.0.0.1" "unknown-token" =
      CheckRateLimit cfgA emptyStore 0 "10.0.0.1" "" :=
  c7_unconfigured_token_falls_back cfgA emptyStore 0 "10.0.0.1" "unknown-token"
    (by decide) (by decide)

/-- Claim C8: `ResetRateLimit key` deletes both the counter record under
`key` and the block marker under `"blocked:" + key` in its one storage
operation (and nothing else), so the next check behaves as on a never-seen
key; concretely, after exhausting IP limit 10 (11 checks), a reset followed
by a check yields `allowed = true` with `remaining = 9`. -/
theorem c8_reset_clears_both :
    (∀ (s : Store) (key : String) (s2 : Store), ResetRateLimit s key = .ok s2 →
       lookupKV s2.data key = none ∧
       lookupKV s2.data ("blocked:" ++ key) = none ∧
       ∀ k : String, k ≠ key → k ≠ "blocked:" ++ key →
         lookupKV s2.data k = lookupKV s.data k) ∧
    (stepsIP cfgA 0 "10.0.0.1" 11 emptyStore =
       .ok (Store.mk [("ip:10.0.0.1", RVal.intVal 11, timeSecond)] []) ∧
     ResetRateLimit (Store.mk [("ip:10.0.0.1", RVal.intVal 11, timeSecond)] [])
       "ip:10.0.0.1" = .ok emptyStore ∧
     nthIPResult cfgA 0 "10.0.0.1" 1 emptyStore =
       some { allowed := true, remaining := 9, resetTime := timeSecond,
              blockTime := 0, reason := "" }) := by
  constructor
  · intro s key s2 h
    unfold ResetRateLimit RedisStrategy.Delete at h
    dsimp only at h
    split at h
    · simp at h
    · simp only [Except.ok.injEq] at h
      subst h
      refine ⟨?_, lookupKV_removeKV_self _ _, ?_⟩
      · by_cases hb : key = "blocked:" ++ key
        · rw [← hb]
          exact lookupKV_removeKV_self _ _
        · rw [lookupKV_removeKV_ne _ hb]
          exact lookupKV_removeKV_self _ _
      · intro k hk1 hk2
        rw [lookupKV_removeKV_ne _ hk2, lookupKV_removeKV_ne _ hk1]
  · exact ⟨by decide, by decide, by decide⟩

/-- Witness for C8: concretely clearing the exhausted `ip:10.0.0.1` counter
leaves no record under that key. -/
theorem c8_reset_clears_both_witness :
    lookupKV emptyStore.data "ip:10.0.0.1" = none :=
  (c8_reset_clears_both.1
    (Store.mk [("ip:10.0.0.1", RVal.intVal 11, timeSecond)] [])
    "ip:10.0.0.1" emptyStore (by decide)).1

/-- Claim C10: for a non-empty token with no configured entry, the token
check returns before any storage operation — the token-scoped key is never
written and the store is left unchanged (the combined check touches only
the IP-scoped key, which never equals a token-scoped key). -/
theorem c10_unconfigured_token_never_written (cfg : RateLimitConfig)
    (s : Store) (now : Time) (token : String)
    (hnc : lookupToken cfg.tokenLimits token = none) :
    CheckTokenRateLimit cfg s now token = .error .tokenNotConfigured ∧
    ∀ (ip : String) (r : CheckResult) (s2 : Store),
      CheckRateLimit cfg s now ip token = .ok (r, s2) →
      lookupKV s2.data ("token:" ++ token) = lookupKV s.data ("token:" ++ token) := by
  have htok : CheckTokenRateLimit cfg s now token = .error .tokenNotConfigured := by
    unfold CheckTokenRateLimit
    rw [hnc]
  refine ⟨htok, ?_⟩
  intro ip r s2 h
  have hip : CheckIPRateLimit cfg s now ip = .ok (r, s2) := by
    unfold CheckRateLimit at h
    by_cases he : token = ""
    · rwa [if_pos he] at h
    · rwa [if_neg he, htok] at h
  obtain ⟨n, hs⟩ := CheckIPRateLimit_ok_store hip
  subst hs
  exact lookupKV_updateKV_ne _ _ (ipKey_ne_tokenKey ip token).symm

/-- Witness for C10: the unconfigured token `unknown-token` is rejected by
the token path with `token not configured`, before any storage write. -/
theorem c10_unconfigured_token_never_written_witness :
    CheckTokenRateLimit cfgA emptyStore 0 "unknown-token" =
      .error .tokenNotConfigured :=
  (c10_unconfigured_token_never_written cfgA emptyStore 0 "unknown-token"
    (by decide)).1

/-- Claim C1: what the 11th same-second check for `ip:10.0.0.1` under IP
limit `10` (block time configured `60s`) actually does.  It is denied with
`remaining = 0` and reason `"IP rate limit exceeded"`, but: `BlockTime` is
`0`, not the configured `60s`; `ResetTime` is `now + 1s`, not
`now + 60s`; `SetBlocked` is never called, so no block marker exists
afterwards and `IsBlocked` still answers `false`.  (The denied check even
increments the counter to `11`.) -/
theorem c1_limit_exceeded_no_block_marker :
    stepsIP cfgA 0 "10.0.0.1" 10 emptyStore =
      .ok (Store.mk [("ip:10.0.0.1", RVal.intVal 10, timeSecond)] []) ∧
    CheckRateLimit cfgA (Store.mk [("ip:10.0.0.1", RVal.intVal 10, timeSecond)] [])
        0 "10.0.0.1" "" =
      .ok ({ allowed := false, remaining := 0, resetTime := timeSecond,
             blockTime := 0, reason := "IP rate limit exceeded" },
           Store.mk [("ip:10.0.0.1", RVal.intVal 11, timeSecond)] []) ∧
    lookupKV (Store.mk [("ip:10.0.0.1", RVal.intVal 11, timeSecond)] []).data
      "blocked:ip:10.0.0.1" = none ∧
    RedisStrategy.IsBlocked
      (Store.mk [("ip:10.0.0.1", RVal.intVal 11, timeSecond)] []) "ip:10.0.0.1" 0 =
      .ok (false, 0) ∧
    cfgA.ipBlockTime = 60 * timeSecond := by
  decide

/-- Claim C2: what a check on a key whose block marker exists actually does.
With `blocked:ip:10.0.0.1` present (TTL `60s` remaining, so `IsBlocked`
answers `true`), the check never consults `IsBlocked`: it increments the
counter anyway and returns `allowed = true`, `remaining = 9` — instead of
the claimed `allowed = false` with the counter untouched. -/
theorem c2_blocked_key_still_counted :
    RedisStrategy.IsBlocked
      (Store.mk [("blocked:ip:10.0.0.1", RVal.strVal "1", 60 * timeSecond)] [])
      "ip:10.0.0.1" 0 = .ok (true, 60 * timeSecond) ∧
    CheckRateLimit cfgA
      (Store.mk [("blocked:ip:10.0.0.1", RVal.strVal "1", 60 * timeSecond)] [])
      0 "10.0.0.1" "" =
      .ok ({ allowed := true, remaining := 9, resetTime := timeSecond,
             blockTime := 0, reason := "" },
           Store.mk [("blocked:ip:10.0.0.1", RVal.strVal "1", 60 * timeSecond),
                     ("ip:10.0.0.1", RVal.intVal 1, timeSecond)] []) := by
  decide

/-- Counterexample to claim C3 as stated: token `abc123` is configured and
its key's storage fails; the token-path check does report the failure, yet
the combined `CheckRateLimit` swallows it — it returns a normal allowed
result (no error surfaced) after performing one further storage operation,
the IP-key increment. -/
theorem c3_token_storage_failure_swallowed :
    CheckTokenRateLimit cfgA (Store.mk [] ["token:abc123"]) 0 "abc123" =
      .error (.failedToIncrement .redisUnavailable) ∧
    CheckRateLimit cfgA (Store.mk [] ["token:abc123"]) 0 "10.0.0.1" "abc123" =
      .ok ({ allowed := true, remaining := 9, resetTime := timeSecond,
             blockTime := 0, reason := "" },
           Store.mk [("ip:10.0.0.1", RVal.intVal 1, timeSecond)] ["token:abc123"]) := by
  decide

/-- Claim C3 as amended: a storage failure inside `CheckIPRateLimit` or
`CheckTokenRateLimit` is surfaced immediately and exactly once, without
retry and with no further storage operation; but the combined
`CheckRateLimit` treats **any** token-path error — a storage failure
included — like an unconfigured token: it silently falls back to the IP
path (one further increment), and only an IP-path failure reaches the
caller. -/
theorem c3_failure_propagation_amended :
    (∀ (cfg : RateLimitConfig) (s : Store) (now : Time) (ip : String),
       ("ip:" ++ ip) ∈ s.failing →
       CheckIPRateLimit cfg s now ip =
         .error (.failedToIncrement .redisUnavailable)) ∧
    (∀ (cfg : RateLimitConfig) (s : Store) (now : Time) (token : String)
       (entry : TokenLimit),
       lookupToken cfg.tokenLimits token = some entry →
       ("token:" ++ token) ∈ s.failing →
       CheckTokenRateLimit cfg s now token =
         .error (.failedToIncrement .redisUnavailable)) ∧
    (∀ (cfg : RateLimitConfig) (s : Store) (now : Time) (ip token : String)
       (e : GoErr),
       token ≠ "" →
       CheckTokenRateLimit cfg s now token = .error e →
       CheckRateLimit cfg s now ip token = CheckIPRateLimit cfg s now ip) := by
  refine ⟨?_, ?_, ?_⟩
  · intro cfg s now ip hfail
    unfold CheckIPRateLimit
    rw [show GetKeyWithPrefix "ip" ip = "ip:" ++ ip from rfl]
    dsimp only
    unfold RedisStrategy.increment
    rw [if_pos hfail]
  · intro cfg s now token entry hcfg hfail
    unfold CheckTokenRateLimit
    rw [show GetKeyWithPrefix "token" token = "token:" ++ token from rfl, hcfg]
    dsimp only
    unfold RedisStrategy.increment
    rw [if_pos hfail]
  · intro cfg s now ip token e hne herr
    unfold CheckRateLimit
    rw [if_neg hne, herr]

/-- Witness for the amended C3: a failing IP key surfaces the wrapped
storage error directly. -/
theorem c3_failure_propagation_amended_witness :
    CheckIPRateLimit cfgA (Store.mk [] ["ip:10.0.0.1"]) 0 "10.0.0.1" =
      .error (.failedToIncrement .redisUnavailable) :=
  c3_failure_propagation_amended.1 cfgA (Store.mk [] ["ip:10.0.0.1"]) 0
    "10.0.0.1" (by decide)

/-- Claim C9: what `GetRateLimitInfo` actually does.  It is read-only and
for an absent key returns the zero-value record
`{count 0, resetTime now + 1s, blocked false}`; but for a present key whose
counter has been incremented (here: three checks, counter `3`, unexpired)
it returns a `json.Unmarshal` error — `Increment` stores a bare integer
while `Get` expects a JSON `RateLimitInfo` document — not the stored
record. -/
theorem c9_get_info_on_counted_key_errors :
    GetRateLimitInfo emptyStore "ip:10.0.0.1" 0 =
      .ok { count := 0, resetTime := timeSecond, blocked := false, blockUntil := 0 } ∧
    stepsIP cfgA 0 "10.0.0.1" 3 emptyStore =
      .ok (Store.mk [("ip:10.0.0.1", RVal.intVal 3, timeSecond)] []) ∧
    GetRateLimitInfo (Store.mk [("ip:10.0.0.1", RVal.intVal 3, timeSecond)] [])
      "ip:10.0.0.1" 0 = .error .unmarshalError := by
  decide

end RateLimiter
